import Mathlib

/-!
Verification of the synchronization core of a browser-based remote file
editor: the retrying transport, the remote content client, the directory
tree cache, and the editor session state machine.  Definitions are shallow
embeddings of the TypeScript source (`fetchWithRetry`, `github.ts`,
`FileTree.tsx`, `useEditorController.ts`); text is modelled as lists of
Unicode characters and machine strings as Lean strings.
-/

namespace Editor

/-! ## Unicode-safe base64 (`toBase64Unicode` / `fromBase64Unicode`)

The source implements `btoa(unescape(encodeURIComponent(str)))`, i.e.
base64 over the UTF-8 bytes of the string, and the inverse
`decodeURIComponent(escape(atob(b64)))`.  We model the UTF-8 byte
encoding of the character sequence followed by RFC 4648 base64 with
padding; decoding is partial (JS `atob` / `decodeURIComponent` throw on
malformed input, modelled by `Option`). -/

/-- UTF-8 encoding of one Unicode code point (as produced by
`unescape(encodeURIComponent ·)` on each character). -/
def utf8EncodeCp (v : Nat) : List Nat :=
  if v < 0x80 then [v]
  else if v < 0x800 then [0xC0 + v / 64, 0x80 + v % 64]
  else if v < 0x10000 then [0xE0 + v / 4096, 0x80 + v / 64 % 64, 0x80 + v % 64]
  else [0xF0 + v / 262144, 0x80 + v / 4096 % 64, 0x80 + v / 64 % 64, 0x80 + v % 64]

/-- UTF-8 bytes of a character sequence. -/
def utf8Encode (s : List Char) : List Nat :=
  (s.map Char.toNat).flatMap utf8EncodeCp

/-- One-byte-at-a-time UTF-8 decoder: `expect` is the number of
continuation bytes still owed for the code point accumulated in `acc`
(`expect = 0` means the next byte must be a lead byte). -/
def utf8DecodeAux : List Nat → Nat → Nat → Option (List Char)
  | [], 0, _ => some []
  | [], _ + 1, _ => none
  | b :: rest, 0, _ =>
    if b < 0x80 then (utf8DecodeAux rest 0 0).map (Char.ofNat b :: ·)
    else if b < 0xC0 then none
    else if b < 0xE0 then utf8DecodeAux rest 1 (b - 0xC0)
    else if b < 0xF0 then utf8DecodeAux rest 2 (b - 0xE0)
    else utf8DecodeAux rest 3 (b - 0xF0)
  | b :: rest, 1, acc =>
    if 0x80 ≤ b ∧ b < 0xC0 then
      (utf8DecodeAux rest 0 0).map (Char.ofNat (acc * 64 + (b - 0x80)) :: ·)
    else none
  | b :: rest, n + 2, acc =>
    if 0x80 ≤ b ∧ b < 0xC0 then utf8DecodeAux rest (n + 1) (acc * 64 + (b - 0x80))
    else none

/-- UTF-8 decoding of a byte sequence back to characters; `none` on a
malformed sequence (this is where `decodeURIComponent` would throw). -/
def utf8Decode (l : List Nat) : Option (List Char) := utf8DecodeAux l 0 0

/-- The base64 alphabet, `A`–`Z`, `a`–`z`, `0`–`9`, `+`, `/`. -/
def b64Alphabet : List Char :=
  "ABCDEFGHIJKLMNOPQRSTUVWXYZabcdefghijklmnopqrstuvwxyz0123456789+/".data

/-- Character for a six-bit group. -/
def b64Char (n : Nat) : Char := b64Alphabet.getD n 'A'

/-- Index of a character in a list, used to invert the alphabet. -/
def charIndex (c : Char) : List Char → Nat → Option Nat
  | [], _ => none
  | a :: r, i => if a = c then some i else charIndex c r (i + 1)

/-- Six-bit value of an alphabet character (`none` for a character outside
the alphabet, where `atob` throws). -/
def b64Val (c : Char) : Option Nat := charIndex c b64Alphabet 0

/-- base64 encoding of a byte sequence, with `=` padding (`btoa`). -/
def b64Encode : List Nat → List Char
  | [] => []
  | [b1] => [b64Char (b1 / 4), b64Char (b1 % 4 * 16), '=', '=']
  | [b1, b2] => [b64Char (b1 / 4), b64Char (b1 % 4 * 16 + b2 / 16), b64Char (b2 % 16 * 4), '=']
  | b1 :: b2 :: b3 :: rest =>
    b64Char (b1 / 4) :: b64Char (b1 % 4 * 16 + b2 / 16) ::
      b64Char (b2 % 16 * 4 + b3 / 64) :: b64Char (b3 % 64) :: b64Encode rest

/-- base64 decoding back to bytes; `none` on malformed input (`atob`
throws there). -/
def b64Decode : List Char → Option (List Nat)
  | [] => some []
  | c1 :: c2 :: c3 :: c4 :: rest =>
    if c3 = '=' ∧ c4 = '=' ∧ rest = [] then
      match b64Val c1, b64Val c2 with
      | some v1, some v2 => some [v1 * 4 + v2 / 16]
      | _, _ => none
    else if c4 = '=' ∧ rest = [] then
      match b64Val c1, b64Val c2, b64Val c3 with
      | some v1, some v2, some v3 => some [v1 * 4 + v2 / 16, v2 % 16 * 16 + v3 / 4]
      | _, _, _ => none
    else
      match b64Val c1, b64Val c2, b64Val c3, b64Val c4 with
      | some v1, some v2, some v3, some v4 =>
        (b64Decode rest).map
          (fun l => (v1 * 4 + v2 / 16) :: (v2 % 16 * 16 + v3 / 4) :: (v3 % 4 * 64 + v4) :: l)
      | _, _, _, _ => none
  | _ => none

/-- `toBase64Unicode` from `github.ts`: base64 of the UTF-8 bytes. -/
def toBase64Unicode (s : List Char) : List Char := b64Encode (utf8Encode s)

/-- `fromBase64Unicode` from `github.ts`: base64-decode then UTF-8-decode;
`none` models the exceptions `atob`/`decodeURIComponent` throw. -/
def fromBase64Unicode (b : List Char) : Option (List Char) :=
  (b64Decode b).bind utf8Decode

/-! ## Retrying transport (`fetchWithRetry`, `src/shared/fetchWithRetry.ts`)

A fetch outcome is modelled by its status and the `parseInt` of its
`Retry-After` header (`none` when the header is not a number, the `NaN`
case; an absent header parses as `0` per `get(...) || '0'`).  The remote
is an oracle giving the response of each successive attempt; the result
also collects the delays slept before each retry. -/

structure TransportResponse where
  status : Nat
  retryAfter : Option Int
  deriving Repr, DecidableEq

/-- The delay chosen before a retry:
`Number.isFinite(retryAfter) && retryAfter > 0 ? retryAfter * 1000 : 1000`. -/
def retryDelay (res : TransportResponse) : Nat :=
  match res.retryAfter with
  | some ra => if 0 < ra then ra.toNat * 1000 else 1000
  | none => 1000

/-- `fetchWithRetry`: returns the final response and the list of waited
delays (milliseconds), recursing with `retries - 1` after a 429/403. -/
def fetchWithRetry (responses : Nat → TransportResponse) (attempt : Nat) :
    Nat → TransportResponse × List Nat
  | 0 => (responses attempt, [])
  | retries + 1 =>
    let res := responses attempt
    if res.status = 429 ∨ res.status = 403 then
      let rec_ := fetchWithRetry responses (attempt + 1) retries
      (rec_.1, retryDelay res :: rec_.2)
    else (res, [])

/-! ## Remote content client (`github.ts`) -/

structure RepoPermissions where
  push : Option Bool
  deriving Repr, DecidableEq

structure GitHubRepo where
  name : String
  full_name : String
  default_branch : String
  archived : Bool
  permissions : Option RepoPermissions
  deriving Repr, DecidableEq

/-- `listEditableRepos` (filtering step): keeps repositories that are not
archived and where `permissions?.push ?? false` holds, then
`slice(0, Math.max(0, limit))`. -/
def listEditableRepos (repos : List GitHubRepo) (limit : Int) : List GitHubRepo :=
  (repos.filter fun r => !r.archived && ((r.permissions.bind (·.push)).getD false)).take
    (max 0 limit).toNat

/-- The JSON body of a contents `PUT`: `createFile` sends
`{message, content, branch}` (no `sha` key, modelled `sha = none`),
`putFile` sends `{message, content, branch, sha}`. -/
structure PutBody where
  message : String
  content : List Char
  branch : String
  sha : Option String
  deriving Repr, DecidableEq

/-- Which client operation a Save dispatches to, with its body. -/
inductive SaveCall where
  | create (body : PutBody)
  | update (body : PutBody)
  deriving Repr, DecidableEq

/-- A thrown JS value as the session sees it: a typed `HttpError`, a plain
`Error` with a message, or anything else. -/
inductive JsError where
  | http (status : Nat) (statusText : String)
  | err (msg : String)
  | other
  deriving Repr, DecidableEq

/-- `getFile`'s parsed 2xx payload (`{sha, content}`); the content is the
base64 text as received, possibly newline-chunked. -/
structure ContentResponse where
  sha : String
  content : List Char
  deriving Repr, DecidableEq

/-- `content.sha` of a write response (`data?.content?.sha`). -/
structure SaveRespContent where
  sha : Option String
  deriving Repr, DecidableEq

structure SaveResp where
  content : Option SaveRespContent
  deriving Repr, DecidableEq

/-- JS `String.prototype.trim`, on the character list (whitespace from
both ends). -/
def jsTrim (s : String) : String :=
  ⟨(((s.data.dropWhile Char.isWhitespace).reverse.dropWhile Char.isWhitespace).reverse)⟩

/-- JS `String.prototype.toLowerCase` on the character list. -/
def jsToLower (s : String) : String :=
  ⟨s.data.map Char.toLower⟩

/-! ## Editor session state machine (`useEditorController.ts`) -/

inductive LoadState where
  | idle | loading | loaded | error
  deriving Repr, DecidableEq

inductive StatusKind where
  | info | success | error
  deriving Repr, DecidableEq

/-- The controller state touched by Open/Save: repository context, buffer,
held version token (`sha`), states and status line. -/
structure Session where
  owner : String
  repo : String
  branch : String
  path : String
  content : List Char
  sha : Option String
  commitMsg : String
  openState : LoadState
  saveState : LoadState
  status : String
  statusKind : StatusKind
  deriving Repr, DecidableEq

/-- JS `a || b` for an optional string `a` (`undefined` and `""` are
falsy). -/
def jsOrElse (a : Option String) (b : String) : String :=
  match a with
  | some s => if s = "" then b else s
  | none => b

/-- JS falsiness of a `string | null` value (`!sha`). -/
def jsStrFalsy (o : Option String) : Bool :=
  match o with
  | none => true
  | some s => s = ""

/-- The error branch of `onOpen`'s `try`/`catch`. -/
def openFail (s : Session) (e : JsError) : Session :=
  { s with
    openState := .error
    statusKind := .error
    status :=
      match e with
      | .http 404 _ => "File not found or insufficient permissions"
      | .http 403 _ => "Forbidden or rate limited. Try again later."
      | .http st stx => "Open failed: " ++ toString st ++ " " ++ stx
      | .err m => "Open failed: " ++ m
      | .other => "Open failed" }

/-- `onOpen(overridePath?)`: guard, `loading` + `setSha(null)`, then the
`getFile` outcome.  `outcome = .ok none` models a JSON-null payload
(`!data`), and a response whose decode throws takes the catch path after
the response `sha` has already been stored. -/
def onOpen (s : Session) (overridePath : Option String)
    (outcome : Except JsError (Option ContentResponse)) : Session :=
  if s.owner = "" ∨ s.repo = "" ∨ jsOrElse overridePath s.path = "" then
    { s with statusKind := .error, status := "Owner, repo, and path are required" }
  else
    let s1 := { s with
      openState := .loading
      statusKind := .info
      status := "Opening file..."
      sha := none }
    match outcome with
    | .error e => openFail s1 e
    | .ok none => openFail s1 (.err "No content returned")
    | .ok (some data) =>
      if data.content = [] then openFail s1 (.err "No content returned")
      else
        let s2 := { s1 with sha := some data.sha }
        match fromBase64Unicode (data.content.filter (· ≠ '\n')) with
        | none => openFail s2 (.err "InvalidCharacterError")
        | some text =>
          { s2 with
            content := text
            openState := .loaded
            statusKind := .success
            status := "Opened " ++ s.owner ++ "/" ++ s.repo ++ "@" ++ s.branch ++ ":" ++
              jsOrElse overridePath s.path }

/-- The commit message: `(messageOverride ?? commitMsg.trim()) || "Update " + path`. -/
def saveMessage (s : Session) (messageOverride : Option String) : String :=
  let m := match messageOverride with
    | some m => m
    | none => jsTrim s.commitMsg
  if m = "" then "Update " ++ s.path else m

/-- The client call a Save issues (`none` when the guard rejects it):
`!sha` routes to `createFile` (no `sha` in the body), otherwise `putFile`
with the held token. -/
def saveRequest (s : Session) (messageOverride : Option String) : Option SaveCall :=
  if s.owner = "" ∨ s.repo = "" ∨ s.path = "" then none
  else
    let body : PutBody :=
      { message := saveMessage s messageOverride
        content := toBase64Unicode s.content
        branch := if jsTrim s.branch = "" then "main" else jsTrim s.branch
        sha := none }
    if jsStrFalsy s.sha then some (.create body)
    else some (.update { body with sha := s.sha })

/-- The error branch of `onSave`'s `try`/`catch`. -/
def saveFail (s : Session) (e : JsError) : Session :=
  { s with
    saveState := .error
    statusKind := .error
    status :=
      match e with
      | .http 409 _ => "Conflict: file changed upstream. Re-open to refresh before saving."
      | .http 403 _ => "Forbidden or rate limited. Try again later."
      | .http st stx => "Save failed: " ++ toString st ++ " " ++ stx
      | .err m => "Save failed: " ++ m
      | .other => "Save failed" }

/-- `onSave(messageOverride?)`: guard, `loading`, then the write outcome;
on success the held token becomes `data?.content?.sha ?? null`. -/
def onSave (s : Session) (_messageOverride : Option String)
    (outcome : Except JsError SaveResp) : Session :=
  if s.owner = "" ∨ s.repo = "" ∨ s.path = "" then
    { s with statusKind := .error, status := "Owner, repo, and path are required" }
  else
    let s1 := { s with
      saveState := .loading
      statusKind := .info
      status := "Saving..." }
    match outcome with
    | .ok data =>
      { s1 with
        sha := data.content.bind (·.sha)
        saveState := .loaded
        statusKind := .success
        status := "Saved successfully." }
    | .error e => saveFail s1 e

/-- `selectRepo`: switches the repository context; note it holds the empty
string in `sha`, not `null`. -/
structure RepoSummary where
  owner : String
  name : String
  fullName : String
  defaultBranch : String
  deriving Repr, DecidableEq

def selectRepo (s : Session) (r : RepoSummary) : Session :=
  { s with
    owner := r.owner
    repo := r.name
    branch := if r.defaultBranch = "" then "main" else r.defaultBranch
    statusKind := .info
    status := "Selected " ++ r.fullName
    openState := .loaded
    path := ""
    content := []
    sha := some "" }

/-! ## Directory tree cache (`FileTree.tsx`)

`Node` mirrors the source type: `name`, `path`, `type ∈ {file, dir}`,
optional `children`, `loaded`, `expanded`.  Lists of children are a
mutually inductive `NodeList` so that all tree functions are structural. -/

inductive NodeType where
  | file | dir
  deriving Repr, DecidableEq

mutual
inductive Node where
  | mk (name : String) (path : String) (type : NodeType) (children : Option NodeList)
      (loaded : Option Bool) (expanded : Option Bool)
inductive NodeList where
  | nil
  | cons (head : Node) (tail : NodeList)
end

def Node.name : Node → String
  | .mk n _ _ _ _ _ => n

def Node.path : Node → String
  | .mk _ p _ _ _ _ => p

def Node.type : Node → NodeType
  | .mk _ _ t _ _ _ => t

def Node.children : Node → Option NodeList
  | .mk _ _ _ c _ _ => c

def Node.loaded : Node → Option Bool
  | .mk _ _ _ _ l _ => l

def Node.expanded : Node → Option Bool
  | .mk _ _ _ _ _ e => e

def NodeList.isNil : NodeList → Bool
  | .nil => true
  | .cons _ _ => false

/-- JS `String.prototype.includes`: `q` occurs as a contiguous substring. -/
def includesSub (q : List Char) : List Char → Bool
  | [] => q.isEmpty
  | c :: t => q.isPrefixOf (c :: t) || includesSub q t

/-- `node.name.toLowerCase().includes(q)` for an already-normalized query. -/
def nameMatches (q : String) (name : String) : Bool :=
  includesSub q.data (jsToLower name).data

/-! `cloneTree`: `{...node, children: node.children?.map(cloneTree)}`. -/
mutual
def cloneTree : Node → Node
  | .mk n p t c l e =>
    .mk n p t (match c with | none => none | some cs => some (cloneList cs)) l e
def cloneList : NodeList → NodeList
  | .nil => .nil
  | .cons h t => .cons (cloneTree h) (cloneList t)
end

/-! `filterTreeInPlace(node, q)`: returns the (in JS, mutated) node and the
boolean the function returns; a kept child is the recursively filtered
child, kept when its own filter call returned true or its name matches. -/
mutual
def filterTree (q : String) : Node → Node × Bool
  | .mk name path ty c l e =>
    if ty = .file then (.mk name path ty c l e, nameMatches q name)
    else
      let kept := match c with
        | none => NodeList.nil
        | some cs => filterKept q cs
      (.mk name path ty (some kept) l (some true), !kept.isNil)
def filterKept (q : String) : NodeList → NodeList
  | .nil => .nil
  | .cons h t =>
    let r := filterTree q h
    let rest := filterKept q t
    if r.2 || nameMatches q h.name then .cons r.1 rest else rest
end

/-- `visibleTree`: normalize the query; empty query returns the root
itself, otherwise filter a deep copy. -/
def visibleTree (root : Node) (filter : String) : Node :=
  let q := jsToLower (jsTrim filter)
  if q = "" then root
  else (filterTree q (cloneTree root)).1

/-! Modelled from the spec's filter contract, for comparison with
`filterTree`: a file node is kept iff its name matches (case-insensitive
substring), a directory node is kept iff its name matches or some
descendant is kept. -/
mutual
def keepSpec (q : String) : Node → Bool
  | .mk name _ ty c _ _ =>
    if ty = .file then nameMatches q name
    else nameMatches q name ||
      match c with
      | none => false
      | some cs => keepSpecList q cs
def keepSpecList (q : String) : NodeList → Bool
  | .nil => false
  | .cons h t => keepSpec q h || keepSpecList q t
end

/-! Modelled from the spec's filter contract: the filtered tree keeps
exactly the kept children (in order) at every directory and forces
`expanded = true` on every directory it visits. -/
mutual
def filterSpec (q : String) : Node → Node
  | .mk name path ty c l e =>
    if ty = .file then .mk name path ty c l e
    else .mk name path ty
      (some (match c with
        | none => NodeList.nil
        | some cs => filterSpecList q cs)) l (some true)
def filterSpecList (q : String) : NodeList → NodeList
  | .nil => .nil
  | .cons h t =>
    if keepSpec q h then .cons (filterSpec q h) (filterSpecList q t) else filterSpecList q t
end

/-! ### Instrumented tree for `applyUpdate`'s allocation behavior

`RNode` is `Node` plus a `ref` identifying the JS object: nodes of the
input tree carry `some k`; every object freshly allocated by a spread
(`{...node, ...}`) carries `none`.  A subtree of the output is shared
with the input exactly when it is returned by reference, keeping its
`ref`. -/

mutual
inductive RNode where
  | mk (ref : Option Nat) (name : String) (path : String) (type : NodeType)
      (children : Option RNodeList) (loaded : Option Bool) (expanded : Option Bool)
inductive RNodeList where
  | nil
  | cons (head : RNode) (tail : RNodeList)
end

def RNode.ref : RNode → Option Nat
  | .mk r _ _ _ _ _ _ => r

def RNode.name : RNode → String
  | .mk _ n _ _ _ _ _ => n

def RNode.path : RNode → String
  | .mk _ _ p _ _ _ _ => p

def RNode.type : RNode → NodeType
  | .mk _ _ _ t _ _ _ => t

def RNode.children : RNode → Option RNodeList
  | .mk _ _ _ _ c _ _ => c

def RNode.loaded : RNode → Option Bool
  | .mk _ _ _ _ _ l _ => l

def RNode.expanded : RNode → Option Bool
  | .mk _ _ _ _ _ _ e => e

/-- `Partial<Node>`: the patch argument of `applyUpdate`; a `some` field
overrides the node's field on merge. -/
structure RPatch where
  name : Option String := none
  path : Option String := none
  type : Option NodeType := none
  children : Option RNodeList := none
  loaded : Option Bool := none
  expanded : Option Bool := none

/-- `{...root, ...patch}`: a fresh object (`ref = none`) whose fields are
the node's overridden by the patch's present fields. -/
def mergeR (n : RNode) (p : RPatch) : RNode :=
  .mk none (p.name.getD n.name) (p.path.getD n.path) (p.type.getD n.type)
    (match p.children with | some cs => some cs | none => n.children)
    (match p.loaded with | some b => some b | none => n.loaded)
    (match p.expanded with | some b => some b | none => n.expanded)

/-! `applyUpdate(root, targetPath, patch)`: replace every node whose
`path` equals the target by the merge; a node without a `children` array
is returned by reference, a node with one is rebuilt
(`{...root, children: root.children.map(...)}`, a fresh object). -/
mutual
def applyUpdate (t : String) (p : RPatch) : RNode → RNode
  | .mk ref name path ty c l e =>
    if path = t then mergeR (.mk ref name path ty c l e) p
    else match c with
      | none => .mk ref name path ty c l e
      | some cs => .mk none name path ty (some (applyUpdateList t p cs)) l e
def applyUpdateList (t : String) (p : RPatch) : RNodeList → RNodeList
  | .nil => .nil
  | .cons h tl => .cons (applyUpdate t p h) (applyUpdateList t p tl)
end

/-! `findNode(root, targetPath)`: depth-first search by exact path
equality. -/
mutual
def findNode (t : String) : RNode → Option RNode
  | .mk ref name path ty c l e =>
    if path = t then some (.mk ref name path ty c l e)
    else
      match c with
      | none => none
      | some cs => findNodeList t cs
def findNodeList (t : String) : RNodeList → Option RNode
  | .nil => none
  | .cons h tl =>
    match findNode t h with
    | some f => some f
    | none => findNodeList t tl
end

/-! ### Round-trip lemmas for the encoding layer -/

theorem b64Val_b64Char : ∀ n, n < 64 → b64Val (b64Char n) = some n := by decide

theorem b64Char_ne_pad : ∀ n, n < 64 → b64Char n ≠ '=' := by decide

theorem b64_roundtrip : ∀ l : List Nat, (∀ b ∈ l, b < 256) →
    b64Decode (b64Encode l) = some l
  | [], _ => rfl
  | [b1], h => by
    have hb1 : b1 < 256 := h b1 (by simp)
    simp only [b64Encode]
    conv_lhs => unfold b64Decode
    rw [if_pos (by simp), b64Val_b64Char _ (by omega), b64Val_b64Char _ (by omega)]
    simp only [Option.some.injEq, List.cons.injEq, and_true]
    omega
  | [b1, b2], h => by
    have hb1 : b1 < 256 := h b1 (by simp)
    have hb2 : b2 < 256 := h b2 (by simp)
    simp only [b64Encode]
    conv_lhs => unfold b64Decode
    rw [if_neg (fun hc => b64Char_ne_pad _ (by omega) hc.1),
      if_pos (by simp), b64Val_b64Char _ (by omega), b64Val_b64Char _ (by omega),
      b64Val_b64Char _ (by omega)]
    simp only [Option.some.injEq, List.cons.injEq, and_true]
    omega
  | b1 :: b2 :: b3 :: rest, h => by
    have hb1 : b1 < 256 := h b1 (by simp)
    have hb2 : b2 < 256 := h b2 (by simp)
    have hb3 : b3 < 256 := h b3 (by simp)
    have ih := b64_roundtrip rest (fun b hb => h b (by simp [hb]))
    simp only [b64Encode]
    conv_lhs => unfold b64Decode
    rw [if_neg (fun hc => b64Char_ne_pad _ (by omega) hc.1),
      if_neg (fun hc => b64Char_ne_pad _ (by omega) hc.1),
      b64Val_b64Char _ (by omega), b64Val_b64Char _ (by omega),
      b64Val_b64Char _ (by omega), b64Val_b64Char _ (by omega), ih]
    simp only [Option.map_some', Option.some.injEq, List.cons.injEq, and_true]
    omega

theorem char_toNat_lt (c : Char) : c.toNat < 1114112 := by
  rcases c.valid with hv | hv
  · exact Nat.lt_trans hv (by norm_num)
  · exact hv.2

theorem utf8EncodeCp_lt {v : Nat} (hv : v < 1114112) : ∀ b ∈ utf8EncodeCp v, b < 256 := by
  intro b hb
  unfold utf8EncodeCp at hb
  split_ifs at hb <;> simp at hb <;> omega

theorem utf8Encode_lt (s : List Char) : ∀ b ∈ utf8Encode s, b < 256 := by
  intro b hb
  simp only [utf8Encode, List.mem_flatMap, List.mem_map] at hb
  obtain ⟨v, ⟨c, _, rfl⟩, hbv⟩ := hb
  exact utf8EncodeCp_lt (char_toNat_lt c) b hbv

theorem utf8DecodeAux_encodeCp {v : Nat} (hv : v < 1114112) (tail : List Nat) :
    utf8DecodeAux (utf8EncodeCp v ++ tail) 0 0 =
      (utf8DecodeAux tail 0 0).map (Char.ofNat v :: ·) := by
  unfold utf8EncodeCp
  split_ifs with h1 h2 h3
  · rw [List.cons_append, List.nil_append, utf8DecodeAux, if_pos h1]
  · rw [List.cons_append, List.cons_append, List.nil_append, utf8DecodeAux,
      if_neg (by omega), if_neg (by omega), if_pos (by omega), utf8DecodeAux,
      if_pos (by omega)]
    have he : (0xC0 + v / 64 - 0xC0) * 64 + (0x80 + v % 64 - 0x80) = v := by omega
    rw [he]
  · rw [List.cons_append, List.cons_append, List.cons_append, List.nil_append,
      utf8DecodeAux, if_neg (by omega), if_neg (by omega), if_neg (by omega),
      if_pos (by omega), utf8DecodeAux, if_pos (by omega), utf8DecodeAux,
      if_pos (by omega)]
    have he : ((0xE0 + v / 4096 - 0xE0) * 64 + (0x80 + v / 64 % 64 - 0x80)) * 64 +
        (0x80 + v % 64 - 0x80) = v := by omega
    rw [he]
  · rw [List.cons_append, List.cons_append, List.cons_append, List.cons_append,
      List.nil_append, utf8DecodeAux, if_neg (by omega), if_neg (by omega),
      if_neg (by omega), if_neg (by omega), utf8DecodeAux, if_pos (by omega),
      utf8DecodeAux, if_pos (by omega), utf8DecodeAux, if_pos (by omega)]
    have he : (((0xF0 + v / 262144 - 0xF0) * 64 + (0x80 + v / 4096 % 64 - 0x80)) * 64 +
        (0x80 + v / 64 % 64 - 0x80)) * 64 + (0x80 + v % 64 - 0x80) = v := by omega
    rw [he]

theorem utf8_roundtrip : ∀ s : List Char, utf8Decode (utf8Encode s) = some s
  | [] => rfl
  | c :: s => by
    have ih := utf8_roundtrip s
    have henc : utf8Encode (c :: s) = utf8EncodeCp c.toNat ++ utf8Encode s := rfl
    unfold utf8Decode at ih ⊢
    rw [henc, utf8DecodeAux_encodeCp (char_toNat_lt c), ih]
    simp [Char.ofNat_toNat]

/-- Unicode-safe base64 round-trip, the core fact behind the spec's
`decode(encode(s)) == s` property. -/
theorem fromBase64_toBase64 (s : List Char) :
    fromBase64Unicode (toBase64Unicode s) = some s := by
  unfold fromBase64Unicode toBase64Unicode
  rw [b64_roundtrip _ (utf8Encode_lt s)]
  simpa using utf8_roundtrip s

/-! ### Session characterization lemmas -/

theorem onOpen_ok (s : Session) (ov : Option String) (data : ContentResponse)
    (text : List Char)
    (hg : ¬ (s.owner = "" ∨ s.repo = "" ∨ jsOrElse ov s.path = ""))
    (hc : data.content ≠ [])
    (hdec : fromBase64Unicode (data.content.filter (· ≠ '\n')) = some text) :
    onOpen s ov (.ok (some data)) =
      { s with
        openState := .loaded
        statusKind := .success
        sha := some data.sha
        content := text
        status := "Opened " ++ s.owner ++ "/" ++ s.repo ++ "@" ++ s.branch ++ ":" ++
          jsOrElse ov s.path } := by
  rw [onOpen, if_neg hg]
  dsimp only
  rw [if_neg hc, hdec]

theorem onOpen_error (s : Session) (ov : Option String) (e : JsError)
    (hg : ¬ (s.owner = "" ∨ s.repo = "" ∨ jsOrElse ov s.path = "")) :
    onOpen s ov (.error e) =
      openFail { s with
        openState := .loading
        statusKind := .info
        status := "Opening file..."
        sha := none } e := by
  rw [onOpen, if_neg hg]

theorem onSave_ok (s : Session) (mo : Option String) (resp : SaveResp)
    (hg : ¬ (s.owner = "" ∨ s.repo = "" ∨ s.path = "")) :
    onSave s mo (.ok resp) =
      { s with
        sha := resp.content.bind (·.sha)
        saveState := .loaded
        statusKind := .success
        status := "Saved successfully." } := by
  rw [onSave, if_neg hg]

theorem onSave_error (s : Session) (mo : Option String) (e : JsError)
    (hg : ¬ (s.owner = "" ∨ s.repo = "" ∨ s.path = "")) :
    onSave s mo (.error e) =
      saveFail { s with
        saveState := .loading
        statusKind := .info
        status := "Saving..." } e := by
  rw [onSave, if_neg hg]

theorem saveRequest_create (s : Session) (mo : Option String)
    (hg : ¬ (s.owner = "" ∨ s.repo = "" ∨ s.path = ""))
    (hsha : jsStrFalsy s.sha = true) :
    saveRequest s mo = some (.create
      { message := saveMessage s mo
        content := toBase64Unicode s.content
        branch := if jsTrim s.branch = "" then "main" else jsTrim s.branch
        sha := none }) := by
  rw [saveRequest, if_neg hg, if_pos hsha]

theorem saveRequest_update (s : Session) (mo : Option String) (tok : String)
    (hg : ¬ (s.owner = "" ∨ s.repo = "" ∨ s.path = ""))
    (hsha : s.sha = some tok) (hne : tok ≠ "") :
    saveRequest s mo = some (.update
      { message := saveMessage s mo
        content := toBase64Unicode s.content
        branch := if jsTrim s.branch = "" then "main" else jsTrim s.branch
        sha := some tok }) := by
  rw [saveRequest, if_neg hg]
  have hf : ¬ jsStrFalsy s.sha = true := by
    rw [hsha]
    simpa [jsStrFalsy] using hne
  rw [if_neg hf, hsha]

/-! ### Tree lemmas -/

mutual
theorem cloneTree_eq : ∀ n : Node, cloneTree n = n
  | .mk nm p t c l e => by
    cases c with
    | none => rfl
    | some cs => rw [cloneTree]; rw [cloneList_eq cs]
theorem cloneList_eq : ∀ l : NodeList, cloneList l = l
  | .nil => rfl
  | .cons h t => by rw [cloneList, cloneTree_eq h, cloneList_eq t]
end

mutual
theorem filterTree_spec (q : String) : ∀ n : Node,
    (filterTree q n).1 = filterSpec q n ∧
    ((filterTree q n).2 || nameMatches q n.name) = keepSpec q n
  | .mk nm p ty c l e => by
    cases ty with
    | file =>
      refine ⟨rfl, ?_⟩
      simp [filterTree, keepSpec, Node.name]
    | dir =>
      cases c with
      | none =>
        refine ⟨rfl, ?_⟩
        simp [filterTree, keepSpec, Node.name, NodeList.isNil]
      | some cs =>
        have hl := filterKept_spec q cs
        refine ⟨?_, ?_⟩
        · show Node.mk nm p .dir (some (filterKept q cs)) l (some true) = _
          rw [hl.1]
          rfl
        · show (!(filterKept q cs).isNil || nameMatches q nm) = _
          rw [hl.2]
          show _ = (nameMatches q nm || keepSpecList q cs)
          exact Bool.or_comm _ _
theorem filterKept_spec (q : String) : ∀ cs : NodeList,
    filterKept q cs = filterSpecList q cs ∧
    (!(filterKept q cs).isNil) = keepSpecList q cs
  | .nil => ⟨rfl, rfl⟩
  | .cons h t => by
    have hn := filterTree_spec q h
    have ht := filterKept_spec q t
    constructor
    · show (if (filterTree q h).2 || nameMatches q h.name then
          NodeList.cons (filterTree q h).1 (filterKept q t) else filterKept q t) = _
      rw [hn.2, hn.1, ht.1]
      rfl
    · show (!(if (filterTree q h).2 || nameMatches q h.name then
          NodeList.cons (filterTree q h).1 (filterKept q t) else filterKept q t).isNil) = _
      rw [hn.2]
      show _ = (keepSpec q h || keepSpecList q t)
      by_cases hk : keepSpec q h = true
      · rw [if_pos hk, hk]
        simp [NodeList.isNil]
      · simp only [Bool.not_eq_true] at hk
        rw [hk, if_neg (by simp), ht.2]
        simp
end

mutual
theorem keepSpec_filterSpec (q : String) : ∀ n : Node,
    keepSpec q (filterSpec q n) = keepSpec q n
  | .mk nm p ty c l e => by
    cases ty with
    | file => rfl
    | dir =>
      cases c with
      | none => rfl
      | some cs =>
        show keepSpec q (.mk nm p .dir (some (filterSpecList q cs)) l (some true)) = _
        show (nameMatches q nm || keepSpecList q (filterSpecList q cs)) = _
        rw [keepSpecList_filterSpecList q cs]
        rfl
theorem keepSpecList_filterSpecList (q : String) : ∀ cs : NodeList,
    keepSpecList q (filterSpecList q cs) = keepSpecList q cs
  | .nil => rfl
  | .cons h t => by
    show keepSpecList q (if keepSpec q h then
        NodeList.cons (filterSpec q h) (filterSpecList q t) else filterSpecList q t) = _
    by_cases hk : keepSpec q h = true
    · rw [if_pos hk]
      show (keepSpec q (filterSpec q h) || keepSpecList q (filterSpecList q t)) = _
      rw [keepSpec_filterSpec q h, keepSpecList_filterSpecList q t]
      rfl
    · simp only [Bool.not_eq_true] at hk
      rw [if_neg (by simp [hk]), keepSpecList_filterSpecList q t]
      show _ = (keepSpec q h || keepSpecList q t)
      rw [hk]
      simp
end

mutual
theorem filterSpec_idem (q : String) : ∀ n : Node,
    filterSpec q (filterSpec q n) = filterSpec q n
  | .mk nm p ty c l e => by
    cases ty with
    | file => rfl
    | dir =>
      cases c with
      | none => rfl
      | some cs =>
        show filterSpec q (.mk nm p .dir (some (filterSpecList q cs)) l (some true)) = _
        show Node.mk nm p .dir (some (filterSpecList q (filterSpecList q cs))) l (some true) = _
        rw [filterSpecList_idem q cs]
        rfl
theorem filterSpecList_idem (q : String) : ∀ cs : NodeList,
    filterSpecList q (filterSpecList q cs) = filterSpecList q cs
  | .nil => rfl
  | .cons h t => by
    by_cases hk : keepSpec q h = true
    · show filterSpecList q (if keepSpec q h then
          NodeList.cons (filterSpec q h) (filterSpecList q t) else filterSpecList q t) = _
      rw [if_pos hk]
      show (if keepSpec q (filterSpec q h) then
          NodeList.cons (filterSpec q (filterSpec q h)) (filterSpecList q (filterSpecList q t))
          else filterSpecList q (filterSpecList q t)) = _
      rw [keepSpec_filterSpec q h, if_pos hk, filterSpec_idem q h, filterSpecList_idem q t,
        filterSpecList]
      rw [if_pos hk]
    · simp only [Bool.not_eq_true] at hk
      show filterSpecList q (if keepSpec q h then
          NodeList.cons (filterSpec q h) (filterSpecList q t) else filterSpecList q t) = _
      rw [if_neg (by simp [hk]), filterSpecList_idem q t, filterSpecList, if_neg (by simp [hk])]
end

/-- For a patch that does not change `path`, the merged node keeps the
target path. -/
theorem mergeR_path (n : RNode) (p : RPatch) (hp : p.path = none) :
    (mergeR n p).path = n.path := by
  cases n
  simp [mergeR, hp, RNode.path]

/-- `findNode` at a node that itself carries the target path. -/
theorem findNode_of_path (t : String) (m : RNode) (h : m.path = t) :
    findNode t m = some m := by
  cases m with
  | mk ref nm path ty c l e =>
    have h2 : path = t := h
    cases c with
    | none =>
      show (if path = t then some (RNode.mk ref nm path ty none l e) else none) = _
      rw [if_pos h2]
    | some cs =>
      show (if path = t then some (RNode.mk ref nm path ty (some cs) l e)
        else findNodeList t cs) = _
      rw [if_pos h2]

/-- `applyUpdate` at a node carrying the target path returns the merge
(a fresh object). -/
theorem applyUpdate_eq_merge (t : String) (p : RPatch) (r : RNode) (h : r.path = t) :
    applyUpdate t p r = mergeR r p := by
  cases r with
  | mk ref nm path ty c l e =>
    have h2 : path = t := h
    cases c with
    | none =>
      show (if path = t then mergeR (RNode.mk ref nm path ty none l e) p
        else RNode.mk ref nm path ty none l e) = _
      rw [if_pos h2]
    | some cs =>
      show (if path = t then mergeR (RNode.mk ref nm path ty (some cs) l e) p
        else RNode.mk none nm path ty (some (applyUpdateList t p cs)) l e) = _
      rw [if_pos h2]

/-- `applyUpdate` at a non-matching node without a children array returns
the very same object (structural sharing). -/
theorem applyUpdate_leaf (t : String) (p : RPatch) (r : RNode)
    (h : r.path ≠ t) (hc : r.children = none) :
    applyUpdate t p r = r := by
  cases r with
  | mk ref nm path ty c l e =>
    have h2 : path ≠ t := h
    cases hc
    show (if path = t then mergeR (RNode.mk ref nm path ty none l e) p
      else RNode.mk ref nm path ty none l e) = _
    rw [if_neg h2]

/-- `applyUpdate` at a non-matching node with a children array rebuilds
the node as a fresh object (`ref = none`) with every child processed. -/
theorem applyUpdate_dir (t : String) (p : RPatch) (ref : Option Nat) (nm path : String)
    (ty : NodeType) (cs : RNodeList) (l e : Option Bool) (h : path ≠ t) :
    applyUpdate t p (RNode.mk ref nm path ty (some cs) l e) =
      RNode.mk none nm path ty (some (applyUpdateList t p cs)) l e := by
  show (if path = t then mergeR (RNode.mk ref nm path ty (some cs) l e) p
    else RNode.mk none nm path ty (some (applyUpdateList t p cs)) l e) = _
  rw [if_neg h]

theorem findNode_leaf (t : String) (m : RNode) (h : m.path ≠ t) (hc : m.children = none) :
    findNode t m = none := by
  cases m with
  | mk ref nm path ty c l e =>
    have h2 : path ≠ t := h
    cases hc
    show (if path = t then some (RNode.mk ref nm path ty none l e) else none) = none
    rw [if_neg h2]

theorem findNode_dir (t : String) (ref : Option Nat) (nm path : String)
    (ty : NodeType) (cs : RNodeList) (l e : Option Bool) (h : path ≠ t) :
    findNode t (RNode.mk ref nm path ty (some cs) l e) = findNodeList t cs := by
  show (if path = t then some (RNode.mk ref nm path ty (some cs) l e)
    else findNodeList t cs) = _
  rw [if_neg h]

mutual
theorem findNode_applyUpdate (t : String) (p : RPatch) (hp : p.path = none) :
    ∀ r : RNode, findNode t (applyUpdate t p r) = (findNode t r).map (mergeR · p)
  | .mk ref nm path ty c l e => by
    by_cases h : (RNode.mk ref nm path ty c l e).path = t
    · rw [applyUpdate_eq_merge t p _ h]
      rw [findNode_of_path t _ (by rw [mergeR_path _ p hp]; exact h)]
      rw [findNode_of_path t _ h]
      rfl
    · cases c with
      | none =>
        rw [applyUpdate_leaf t p _ h rfl, findNode_leaf t _ h rfl]
        rfl
      | some cs =>
        rw [applyUpdate_dir t p ref nm path ty cs l e h]
        rw [findNode_dir t none nm path ty (applyUpdateList t p cs) l e h]
        rw [findNode_dir t ref nm path ty cs l e h]
        exact findNodeList_applyUpdateList t p hp cs
termination_by r => sizeOf r
theorem findNodeList_applyUpdateList (t : String) (p : RPatch) (hp : p.path = none) :
    ∀ cs : RNodeList,
      findNodeList t (applyUpdateList t p cs) = (findNodeList t cs).map (mergeR · p)
  | .nil => rfl
  | .cons h tl => by
    show (match findNode t (applyUpdate t p h) with
      | some f => some f
      | none => findNodeList t (applyUpdateList t p tl)) = _
    rw [findNode_applyUpdate t p hp h]
    cases hf : findNode t h with
    | some f =>
      show some (mergeR f p) = _
      rw [findNodeList, hf]
      rfl
    | none =>
      show findNodeList t (applyUpdateList t p tl) = _
      rw [findNodeList, hf, findNodeList_applyUpdateList t p hp tl]
termination_by cs => sizeOf cs
end

/-! ## Claim theorems -/

/-- C4: for every request sent through the retrying transport, a 429 or
403 response with `retries > 0` waits `Retry-After` seconds when the
header is present and positive (otherwise a fixed 1000 ms) and retries
once with `retries - 1`; no other status triggers a retry, and with
retries exhausted the rate-limited response is returned as-is without
waiting.  Stated as a full characterization of `fetchWithRetry`, plus the
spec's scenario: a 429 with `Retry-After: 2` waits 2000 ms, retries
exactly once, and a second 429 is returned without a further wait. -/
theorem claim_C4_retry_policy :
    (∀ (responses : Nat → TransportResponse) (attempt retries : Nat),
      fetchWithRetry responses attempt retries =
        if ((responses attempt).status = 429 ∨ (responses attempt).status = 403) ∧ 0 < retries
        then ((fetchWithRetry responses (attempt + 1) (retries - 1)).1,
          retryDelay (responses attempt) ::
            (fetchWithRetry responses (attempt + 1) (retries - 1)).2)
        else (responses attempt, [])) ∧
    (∀ responses : Nat → TransportResponse,
      responses 0 = { status := 429, retryAfter := some 2 } →
      (responses 1).status = 429 →
      fetchWithRetry responses 0 1 = (responses 1, [2000])) := by
  constructor
  · intro responses attempt retries
    cases retries with
    | zero => simp [fetchWithRetry]
    | succ k =>
      rw [fetchWithRetry]
      by_cases hs : (responses attempt).status = 429 ∨ (responses attempt).status = 403
      · rw [if_pos hs, if_pos ⟨hs, Nat.succ_pos k⟩]
        rfl
      · rw [if_neg hs, if_neg (fun hc => hs hc.1)]
  · intro responses h0 h1
    have e1 : fetchWithRetry responses 0 1 =
        ((fetchWithRetry responses 1 0).1,
          retryDelay (responses 0) :: (fetchWithRetry responses 1 0).2) := by
      show (if (responses 0).status = 429 ∨ (responses 0).status = 403 then
          ((fetchWithRetry responses 1 0).1,
            retryDelay (responses 0) :: (fetchWithRetry responses 1 0).2)
        else (responses 0, [])) = _
      rw [if_pos (by rw [h0]; exact Or.inl rfl)]
    have e2 : fetchWithRetry responses 1 0 = (responses 1, []) := rfl
    rw [e1, e2, h0]
    rfl

/-- C4 witness: a remote answering 429 with `Retry-After: 2` on the first
attempt and 429 again on the retry: one 2000 ms wait, then the second
response is handed back. -/
theorem claim_C4_witness :
    fetchWithRetry
      (fun n => if n = 0 then TransportResponse.mk 429 (some 2) else TransportResponse.mk 429 none)
      0 1 = (TransportResponse.mk 429 none, [2000]) :=
  claim_C4_retry_policy.2
    (fun n => if n = 0 then TransportResponse.mk 429 (some 2) else TransportResponse.mk 429 none)
    rfl rfl

/-- C10: the accessible-repositories listing returns only entries that
are not archived and have push permission, preserves the input's recency
order (it is a sublist of the fetched page), and truncates to at most the
requested limit. -/
theorem claim_C10_repo_listing (repos : List GitHubRepo) (limit : Int) :
    (∀ r ∈ listEditableRepos repos limit,
      r.archived = false ∧ (r.permissions.bind (·.push)).getD false = true) ∧
    (listEditableRepos repos limit).Sublist repos ∧
    (listEditableRepos repos limit).length ≤ (max 0 limit).toNat := by
  refine ⟨?_, ?_, ?_⟩
  · intro r hr
    have hm := List.mem_of_mem_take hr
    have hf := List.of_mem_filter hm
    simp only [Bool.and_eq_true, Bool.not_eq_true'] at hf
    exact ⟨hf.1, hf.2⟩
  · exact (List.take_sublist _ _).trans (List.filter_sublist _)
  · rw [listEditableRepos]
    exact List.length_take_le _ _

/-- C10 witness: with one archived and one writable repository fetched,
the listing keeps the writable one, and the theorem yields its
not-archived / push-permission facts. -/
theorem claim_C10_witness :
    (GitHubRepo.mk "good" "o/good" "main" false (some ⟨some true⟩)).archived = false ∧
    (((GitHubRepo.mk "good" "o/good" "main" false
        (some ⟨some true⟩)).permissions.bind (·.push)).getD false) = true :=
  (claim_C10_repo_listing
    [GitHubRepo.mk "arch" "o/arch" "main" true (some ⟨some true⟩),
     GitHubRepo.mk "good" "o/good" "main" false (some ⟨some true⟩)] 30).1
    (GitHubRepo.mk "good" "o/good" "main" false (some ⟨some true⟩)) (by decide)

/-- C6: decoding the encoding of any Unicode text returns the text:
`fromBase64Unicode (toBase64Unicode s) = some s`, multi-byte characters
and embedded newlines included. -/
theorem claim_C6_roundtrip (s : List Char) :
    fromBase64Unicode (toBase64Unicode s) = some s :=
  fromBase64_toBase64 s

/-- C2: a Save failing with `HttpError(409)` reports the conflict
message, sets `saveState = error`, and leaves the held version token
unchanged. -/
theorem claim_C2_conflict (s : Session) (mo : Option String) (stx : String)
    (hg : ¬ (s.owner = "" ∨ s.repo = "" ∨ s.path = "")) :
    (onSave s mo (.error (.http 409 stx))).status =
      "Conflict: file changed upstream. Re-open to refresh before saving." ∧
    (onSave s mo (.error (.http 409 stx))).saveState = .error ∧
    (onSave s mo (.error (.http 409 stx))).sha = s.sha := by
  rw [onSave_error s mo _ hg]
  exact ⟨rfl, rfl, rfl⟩

/-- C2 witness: a concrete session holding token `T1` whose save fails
with 409 shows the conflict status, error state, and the preserved
token. -/
theorem claim_C2_witness :
    (onSave (Session.mk "o" "r" "main" "a.md" [] (some "T1") "" .loaded .idle "" .info)
      none (.error (.http 409 "Conflict"))).status =
      "Conflict: file changed upstream. Re-open to refresh before saving." ∧
    (onSave (Session.mk "o" "r" "main" "a.md" [] (some "T1") "" .loaded .idle "" .info)
      none (.error (.http 409 "Conflict"))).saveState = .error ∧
    (onSave (Session.mk "o" "r" "main" "a.md" [] (some "T1") "" .loaded .idle "" .info)
      none (.error (.http 409 "Conflict"))).sha = some "T1" :=
  claim_C2_conflict (Session.mk "o" "r" "main" "a.md" [] (some "T1") "" .loaded .idle "" .info)
    none "Conflict" (by decide)

/-- C3 counterexample: the claim says a session holding a non-null token
always takes the update path, but the code branches on JS falsiness
(`!sha`): with the held token `some ""` (exactly what `selectRepo`
stores) the create path is invoked and the outgoing body carries no
`sha`. -/
theorem claim_C3_counterexample :
    (Session.mk "o" "r" "main" "a.md" [] (some "") "" .loaded .idle "" .info).sha ≠ none ∧
    saveRequest (Session.mk "o" "r" "main" "a.md" [] (some "") "" .loaded .idle "" .info) none =
      some (.create (PutBody.mk "Update a.md" [] "main" none)) := by
  exact ⟨by decide, by decide⟩

/-- C3 (amended): a Save on a session whose token is null or empty
invokes the create path with no `sha` in the body; a Save on a session
holding a non-empty token invokes the update path with `sha` equal to the
held token. -/
theorem claim_C3_amended (s : Session) (mo : Option String)
    (hg : ¬ (s.owner = "" ∨ s.repo = "" ∨ s.path = "")) :
    ((s.sha = none ∨ s.sha = some "") →
      saveRequest s mo = some (.create
        { message := saveMessage s mo
          content := toBase64Unicode s.content
          branch := if jsTrim s.branch = "" then "main" else jsTrim s.branch
          sha := none })) ∧
    (∀ tok, s.sha = some tok → tok ≠ "" →
      saveRequest s mo = some (.update
        { message := saveMessage s mo
          content := toBase64Unicode s.content
          branch := if jsTrim s.branch = "" then "main" else jsTrim s.branch
          sha := some tok })) := by
  constructor
  · intro hsha
    rw [saveRequest, if_neg hg]
    have hf : jsStrFalsy s.sha = true := by
      rcases hsha with h | h <;> rw [h] <;> rfl
    rw [if_pos hf]
  · intro tok htok hne
    rw [saveRequest, if_neg hg]
    have hf : ¬ jsStrFalsy s.sha = true := by
      rw [htok]
      simpa [jsStrFalsy] using hne
    rw [if_neg hf, htok]

/-- C3 witness: a null-token session creates (no `sha`), a session
holding `T1` updates with `sha = T1`. -/
theorem claim_C3_witness :
    saveRequest (Session.mk "o" "r" "main" "a.md" [] none "" .idle .idle "" .info) none =
      some (.create (PutBody.mk "Update a.md" [] "main" none)) ∧
    saveRequest (Session.mk "o" "r" "main" "a.md" [] (some "T1") "" .idle .idle "" .info) none =
      some (.update (PutBody.mk "Update a.md" [] "main" (some "T1"))) :=
  ⟨(claim_C3_amended (Session.mk "o" "r" "main" "a.md" [] none "" .idle .idle "" .info)
      none (by decide)).1 (Or.inl rfl),
   (claim_C3_amended (Session.mk "o" "r" "main" "a.md" [] (some "T1") "" .idle .idle "" .info)
      none (by decide)).2 "T1" rfl (by decide)⟩

/-- C1 counterexample: the claim quantifies over every successful Open,
but a read returning the token `""` (with non-empty content) opens
successfully, and the immediately following Save then takes the create
path: its request body carries no `sha` at all rather than the token the
Open returned. -/
theorem claim_C1_counterexample :
    (onOpen (Session.mk "o" "r" "main" "a.md" [] none "" .idle .idle "" .info) none
      (.ok (some (ContentResponse.mk "" "QQ==".data)))).openState = .loaded ∧
    (onOpen (Session.mk "o" "r" "main" "a.md" [] none "" .idle .idle "" .info) none
      (.ok (some (ContentResponse.mk "" "QQ==".data)))).sha = some "" ∧
    saveRequest (onOpen (Session.mk "o" "r" "main" "a.md" [] none "" .idle .idle "" .info) none
      (.ok (some (ContentResponse.mk "" "QQ==".data)))) none =
      some (.create (PutBody.mk "Update a.md" "QQ==".data "main" none)) :=
  ⟨by decide, by decide, by decide⟩

/-- C1 (amended): for every successful Open whose response token is
non-empty, a Save issued on the resulting session with no intervening
change sends an update whose body `sha` is exactly the token the Open
returned; and when that Save succeeds, the session's held token equals
the new token in the write response. -/
theorem claim_C1_amended (s : Session) (ov : Option String) (data : ContentResponse)
    (text : List Char) (resp : SaveResp) (tok2 : String)
    (hg : ¬ (s.owner = "" ∨ s.repo = "" ∨ jsOrElse ov s.path = ""))
    (hg2 : ¬ (s.owner = "" ∨ s.repo = "" ∨ s.path = ""))
    (hc : data.content ≠ [])
    (hdec : fromBase64Unicode (data.content.filter (· ≠ '\n')) = some text)
    (hsha : data.sha ≠ "")
    (hresp : resp.content = some (SaveRespContent.mk (some tok2))) :
    (∃ body, saveRequest (onOpen s ov (.ok (some data))) none = some (.update body) ∧
      body.sha = some data.sha) ∧
    (onSave (onOpen s ov (.ok (some data))) none (.ok resp)).sha = some tok2 := by
  have hopen := onOpen_ok s ov data text hg hc hdec
  have hg3 : ¬ ((onOpen s ov (.ok (some data))).owner = "" ∨
      (onOpen s ov (.ok (some data))).repo = "" ∨
      (onOpen s ov (.ok (some data))).path = "") := by
    rw [hopen]
    exact hg2
  constructor
  · exact ⟨_, saveRequest_update _ none data.sha hg3 (by rw [hopen]) hsha, rfl⟩
  · rw [onSave_ok _ none resp hg3]
    show resp.content.bind (fun c => c.sha) = some tok2
    rw [hresp]
    rfl

/-- C1 witness: opening `a.md` returns token `T1` and content `QQ==`
("A"); the following Save updates with `sha = T1`, and a success response
carrying `T2` leaves the session holding `T2`. -/
theorem claim_C1_witness :
    (∃ body,
      saveRequest (onOpen (Session.mk "o" "r" "main" "a.md" [] none "" .idle .idle "" .info) none
        (.ok (some (ContentResponse.mk "T1" "QQ==".data)))) none = some (.update body) ∧
      body.sha = some (ContentResponse.mk "T1" "QQ==".data).sha) ∧
    (onSave (onOpen (Session.mk "o" "r" "main" "a.md" [] none "" .idle .idle "" .info) none
      (.ok (some (ContentResponse.mk "T1" "QQ==".data)))) none
      (.ok (SaveResp.mk (some (SaveRespContent.mk (some "T2")))))).sha = some "T2" :=
  claim_C1_amended (Session.mk "o" "r" "main" "a.md" [] none "" .idle .idle "" .info)
    none (ContentResponse.mk "T1" "QQ==".data) "A".data
    (SaveResp.mk (some (SaveRespContent.mk (some "T2")))) "T2"
    (by decide) (by decide) (by decide) (by decide) (by decide) rfl

/-- C5 counterexample: the claim says a failed Open leaves the held
token as it was, but `onOpen` nulls the token before the fetch: a 404 on
a session holding `T1` leaves the content buffer intact but the token
cleared. -/
theorem claim_C5_counterexample :
    (onOpen (Session.mk "o" "r" "main" "a.md" "old".data (some "T1") "" .loaded .idle "" .info)
      none (.error (.http 404 "Not Found"))).sha = none ∧
    (Session.mk "o" "r" "main" "a.md" "old".data (some "T1") "" .loaded .idle "" .info).sha =
      some "T1" ∧
    (onOpen (Session.mk "o" "r" "main" "a.md" "old".data (some "T1") "" .loaded .idle "" .info)
      none (.error (.http 404 "Not Found"))).content = "old".data ∧
    (onOpen (Session.mk "o" "r" "main" "a.md" "old".data (some "T1") "" .loaded .idle "" .info)
      none (.error (.http 404 "Not Found"))).openState = .error :=
  ⟨by decide, by decide, by decide, by decide⟩

/-- C5 (amended): a failed Save leaves the content buffer and the held
token unchanged; a failed Open leaves the content buffer unchanged but
not the token — the token is nulled when the Open starts, and on a
decode failure it has already been overwritten with the response's
token. -/
theorem claim_C5_amended (s : Session) (ov mo : Option String)
    (hgo : ¬ (s.owner = "" ∨ s.repo = "" ∨ jsOrElse ov s.path = ""))
    (hgs : ¬ (s.owner = "" ∨ s.repo = "" ∨ s.path = "")) :
    (∀ e : JsError, (onOpen s ov (.error e)).content = s.content ∧
      (onOpen s ov (.error e)).openState = .error ∧ (onOpen s ov (.error e)).sha = none) ∧
    ((onOpen s ov (.ok none)).content = s.content ∧ (onOpen s ov (.ok none)).sha = none) ∧
    (∀ data : ContentResponse, data.content = [] →
      (onOpen s ov (.ok (some data))).content = s.content ∧
      (onOpen s ov (.ok (some data))).sha = none) ∧
    (∀ data : ContentResponse, data.content ≠ [] →
      fromBase64Unicode (data.content.filter (· ≠ '\n')) = none →
      (onOpen s ov (.ok (some data))).content = s.content ∧
      (onOpen s ov (.ok (some data))).sha = some data.sha) ∧
    (∀ e : JsError, (onSave s mo (.error e)).content = s.content ∧
      (onSave s mo (.error e)).sha = s.sha ∧ (onSave s mo (.error e)).saveState = .error) := by
  refine ⟨?_, ?_, ?_, ?_, ?_⟩
  · intro e
    rw [onOpen_error s ov e hgo]
    exact ⟨rfl, rfl, rfl⟩
  · rw [onOpen, if_neg hgo]
    exact ⟨rfl, rfl⟩
  · intro data hdc
    rw [onOpen, if_neg hgo]
    dsimp only
    rw [if_pos hdc]
    exact ⟨rfl, rfl⟩
  · intro data hne hdecf
    rw [onOpen, if_neg hgo]
    dsimp only
    rw [if_neg hne, hdecf]
    exact ⟨rfl, rfl⟩
  · intro e
    rw [onSave_error s mo e hgs]
    exact ⟨rfl, rfl, rfl⟩

/-- C5 witness: on a concrete session holding `T1` with buffered text, a
500 Open failure keeps the buffer (token aside), and a failed Save keeps
both buffer and token. -/
theorem claim_C5_witness :
    ((onOpen (Session.mk "o" "r" "main" "a.md" "keep".data (some "T1") "" .loaded .idle "" .info)
      none (.error (.http 500 "ISE"))).content = "keep".data ∧
    (onOpen (Session.mk "o" "r" "main" "a.md" "keep".data (some "T1") "" .loaded .idle "" .info)
      none (.error (.http 500 "ISE"))).openState = .error ∧
    (onOpen (Session.mk "o" "r" "main" "a.md" "keep".data (some "T1") "" .loaded .idle "" .info)
      none (.error (.http 500 "ISE"))).sha = none) ∧
    ((onSave (Session.mk "o" "r" "main" "a.md" "keep".data (some "T1") "" .loaded .idle "" .info)
      none (.error .other)).content = "keep".data ∧
    (onSave (Session.mk "o" "r" "main" "a.md" "keep".data (some "T1") "" .loaded .idle "" .info)
      none (.error .other)).sha = some "T1" ∧
    (onSave (Session.mk "o" "r" "main" "a.md" "keep".data (some "T1") "" .loaded .idle "" .info)
      none (.error .other)).saveState = .error) :=
  ⟨(claim_C5_amended
      (Session.mk "o" "r" "main" "a.md" "keep".data (some "T1") "" .loaded .idle "" .info)
      none none (by decide) (by decide)).1 (.http 500 "ISE"),
   (claim_C5_amended
      (Session.mk "o" "r" "main" "a.md" "keep".data (some "T1") "" .loaded .idle "" .info)
      none none (by decide) (by decide)).2.2.2.2 .other⟩

/-- C7: for every tree and every query that is non-empty after
normalization, the filtered view equals the spec-side filter: a
case-insensitive substring match in which a file is kept iff its name
matches, a directory is kept iff its name matches or some descendant is
kept (`keepSpec`), every directory in the result is forced
`expanded = true` (built into `filterSpec`), and the filter operates on a
deep copy that equals the original, leaving the input untouched. -/
theorem claim_C7_filter (root : Node) (f : String)
    (hq : jsToLower (jsTrim f) ≠ "") :
    visibleTree root f = filterSpec (jsToLower (jsTrim f)) root ∧
    cloneTree root = root ∧
    (root.type = .dir → (visibleTree root f).expanded = some true) := by
  have h1 : visibleTree root f = filterSpec (jsToLower (jsTrim f)) root := by
    show (if jsToLower (jsTrim f) = "" then root
      else (filterTree (jsToLower (jsTrim f)) (cloneTree root)).1) = _
    rw [if_neg hq, cloneTree_eq]
    exact (filterTree_spec _ root).1
  refine ⟨h1, cloneTree_eq root, ?_⟩
  intro hd
  rw [h1]
  cases root with
  | mk nm p ty c l e =>
    have hty : ty = .dir := hd
    subst hty
    rfl

/-- C7 witness: filtering a two-file directory for `"A"` (normalized to
`"a"`) keeps only `a.md`, per the spec-side filter. -/
theorem claim_C7_witness :
    visibleTree (Node.mk "/" "" .dir (some (.cons (Node.mk "a.md" "a.md" .file none none none)
      (.cons (Node.mk "b.txt" "b.txt" .file none none none) .nil))) (some true) (some true))
      "A" =
    filterSpec (jsToLower (jsTrim "A"))
      (Node.mk "/" "" .dir (some (.cons (Node.mk "a.md" "a.md" .file none none none)
        (.cons (Node.mk "b.txt" "b.txt" .file none none none) .nil))) (some true) (some true)) :=
  (claim_C7_filter
    (Node.mk "/" "" .dir (some (.cons (Node.mk "a.md" "a.md" .file none none none)
      (.cons (Node.mk "b.txt" "b.txt" .file none none none) .nil))) (some true) (some true))
    "A" (by decide)).1

/-- C8: applying the tree filter twice with the same query yields a
result structurally identical to applying it once, and filtering with
the empty query returns a tree equal to the unfiltered input (the root
itself). -/
theorem claim_C8_idempotent (root : Node) (f : String) :
    visibleTree (visibleTree root f) f = visibleTree root f ∧
    visibleTree root "" = root := by
  constructor
  · by_cases hq : jsToLower (jsTrim f) = ""
    · have h1 : visibleTree root f = root := by
        show (if jsToLower (jsTrim f) = "" then root
          else (filterTree (jsToLower (jsTrim f)) (cloneTree root)).1) = root
        rw [if_pos hq]
      rw [h1]
      exact h1
    · have h1 : ∀ r : Node, visibleTree r f = filterSpec (jsToLower (jsTrim f)) r := by
        intro r
        show (if jsToLower (jsTrim f) = "" then r
          else (filterTree (jsToLower (jsTrim f)) (cloneTree r)).1) = _
        rw [if_neg hq, cloneTree_eq]
        exact (filterTree_spec _ r).1
      rw [h1 root, h1 (filterSpec (jsToLower (jsTrim f)) root)]
      exact filterSpec_idem _ root
  · rfl

/-- C9 counterexample: the claim says all nodes other than the target's
ancestors are structurally shared with the input, but `applyUpdate`
rebuilds every node carrying a children array: patching `"b"` leaves the
sibling directory `"a"` (not an ancestor of `"b"`) as a fresh object
(`ref` lost), not the input object `ref = some 1`. -/
theorem claim_C9_counterexample :
    findNode "a" (applyUpdate "b" { expanded := some true }
      (RNode.mk (some 0) "/" "" .dir (some (.cons
        (RNode.mk (some 1) "a" "a" .dir
          (some (.cons (RNode.mk (some 3) "x" "a/x" .file none none none) .nil))
          (some true) (some false))
        (.cons (RNode.mk (some 2) "b" "b" .file none none none) .nil)))
        (some true) (some true))) =
      some (RNode.mk none "a" "a" .dir
        (some (.cons (RNode.mk (some 3) "x" "a/x" .file none none none) .nil))
        (some true) (some false)) ∧
    findNode "a"
      (RNode.mk (some 0) "/" "" .dir (some (.cons
        (RNode.mk (some 1) "a" "a" .dir
          (some (.cons (RNode.mk (some 3) "x" "a/x" .file none none none) .nil))
          (some true) (some false))
        (.cons (RNode.mk (some 2) "b" "b" .file none none none) .nil)))
        (some true) (some true)) =
      some (RNode.mk (some 1) "a" "a" .dir
        (some (.cons (RNode.mk (some 3) "x" "a/x" .file none none none) .nil))
        (some true) (some false)) :=
  ⟨rfl, rfl⟩

/-- C9 (amended): for a patch that does not change `path`, `applyUpdate`
replaces every node whose path equals the target by the merge of its old
fields and the patch — a fresh object (`ref = none`) — as located by
`findNode`; a non-matching node without a children array is returned by
reference (structurally shared, ancestors' descendants included); every
non-matching node with a children array — ancestor of the target or not
— is rebuilt as a fresh object with all children processed; and when the
patch carries no children the merged target keeps its old subtree by
reference.  The input tree is never mutated (the embedding is pure). -/
theorem claim_C9_amended (t : String) (p : RPatch) (hp : p.path = none) :
    (∀ r : RNode, findNode t (applyUpdate t p r) = (findNode t r).map (mergeR · p)) ∧
    (∀ n : RNode, (mergeR n p).ref = none) ∧
    (∀ r : RNode, r.path ≠ t → r.children = none → applyUpdate t p r = r) ∧
    (∀ (ref : Option Nat) (nm path : String) (ty : NodeType) (cs : RNodeList)
      (l e : Option Bool), path ≠ t →
      applyUpdate t p (RNode.mk ref nm path ty (some cs) l e) =
        RNode.mk none nm path ty (some (applyUpdateList t p cs)) l e) ∧
    (p.children = none → ∀ n : RNode, (mergeR n p).children = n.children) := by
  refine ⟨findNode_applyUpdate t p hp, ?_, applyUpdate_leaf t p, ?_, ?_⟩
  · intro n
    cases n
    rfl
  · intro ref nm path ty cs l e h
    exact applyUpdate_dir t p ref nm path ty cs l e h
  · intro hc n
    cases n
    simp [mergeR, hc, RNode.children]

/-- C9 witness: on a concrete two-child tree, patching `"b"` replaces the
`"b"` node by the merge of its fields with the patch, as found by
`findNode`. -/
theorem claim_C9_witness :
    findNode "b" (applyUpdate "b" { expanded := some true }
      (RNode.mk (some 0) "/" "" .dir (some (.cons
        (RNode.mk (some 1) "a" "a" .file none none none)
        (.cons (RNode.mk (some 2) "b" "b" .file none none (some false)) .nil)))
        (some true) (some true))) =
      (findNode "b"
        (RNode.mk (some 0) "/" "" .dir (some (.cons
          (RNode.mk (some 1) "a" "a" .file none none none)
          (.cons (RNode.mk (some 2) "b" "b" .file none none (some false)) .nil)))
          (some true) (some true))).map (mergeR · { expanded := some true }) :=
  (claim_C9_amended "b" { expanded := some true } rfl).1
    (RNode.mk (some 0) "/" "" .dir (some (.cons
      (RNode.mk (some 1) "a" "a" .file none none none)
      (.cons (RNode.mk (some 2) "b" "b" .file none none (some false)) .nil)))
      (some true) (some true))

end Editor
